import Mathlib

/-!
Verification of the streaming process executor of the Telegram/Claude bridge
(`src/bot/src/claude/cli_executor.py`) and its request-rate gate
(`src/bot/src/security/validator.py`), as a shallow embedding in Lean.

Bytes are modelled as natural numbers (the newline byte is 10); JSON values
produced by `json.loads` are modelled by the inductive type `JVal`; Python
floats are carried opaquely (no arithmetic is performed on them in the
source), with numeric literals embedded as integers; `time.time()` values are
modelled as integers (the source only compares them after subtracting an
integer window, so no fractional arithmetic occurs).  Fallible Python code (statements that can raise) is
embedded in `Except String`.
-/

namespace CCBot

/-! ## Bounded line reader (`ClaudeProcessManager._read_stream_bounded`) -/

/-- The inner `while b"\n" in buffer` loop of `_read_stream_bounded`:
repeatedly `split(b"\n", 1)` the buffer (prefix before the first newline,
suffix after it), collecting the prefix lines, until no newline byte remains;
returns the yielded lines and the final remainder. -/
def drainLines (buf : List Nat) : List (List Nat) × List Nat :=
  if h : 10 ∈ buf then
    (buf.takeWhile (fun b => b != 10) ::
       (drainLines ((buf.dropWhile (fun b => b != 10)).tail)).1,
     (drainLines ((buf.dropWhile (fun b => b != 10)).tail)).2)
  else
    ([], buf)
termination_by buf.length
decreasing_by
  have hd : buf.dropWhile (fun b => b != 10) ≠ [] := by
    intro hcon
    have hall := List.dropWhile_eq_nil_iff.mp hcon 10 h
    simp at hall
  have h1 : (buf.dropWhile (fun b => b != 10)).length ≤ buf.length :=
    (List.dropWhile_sublist _).length_le
  have h2 : 1 ≤ (buf.dropWhile (fun b => b != 10)).length :=
    List.length_pos.mpr hd
  simp only [List.length_tail]
  omega

/-- The outer read loop of `_read_stream_bounded`: each element of `chunks` is
one (non-empty) return of `stream.read`; the carried `buf` is the undelivered
remainder.  When a read returns empty the loop breaks, discarding the
remainder.  Lines are yielded as byte sequences; the per-line
`decode("utf-8", errors="replace")` is applied to exactly these byte
sequences, so equal byte-line sequences decode to equal text-line
sequences. -/
def readChunks : List (List Nat) → List Nat → List (List Nat)
  | [], _buf => []
  | c :: cs, buf =>
    (drainLines (buf ++ c)).1 ++ readChunks cs (drainLines (buf ++ c)).2

/-- Structural reformulation of `drainLines`, used only inside proofs. -/
def drainAux : List Nat → List (List Nat) × List Nat
  | [] => ([], [])
  | b :: rest =>
    if b = 10 then
      ([] :: (drainAux rest).1, (drainAux rest).2)
    else
      match drainAux rest with
      | (l :: ls, r) => ((b :: l) :: ls, r)
      | ([], r) => ([], b :: r)

/-! ## JSON values (`json.loads` results) -/

/-- A Python value produced by `json.loads`.  Numbers are embedded as
integers: the source never computes with them (`total_cost_usd` is only
stored and returned), so the embedding is value-agnostic. -/
inductive JVal where
  | jnull
  | jbool (b : Bool)
  | jnum (n : Int)
  | jstr (s : String)
  | jarr (elems : List JVal)
  | jobj (fields : List (String × JVal))

/-- The field list of a JSON object, as `json.loads` returns it (keys are
unique in a parsed `dict`). -/
abbrev JObj := List (String × JVal)

/-- `d.get(k)`: the value at key `k`, or `None` (here `Option.none`). -/
def getField (m : JObj) (k : String) : Option JVal :=
  (m.find? (fun p => p.1 == k)).map (fun p => p.2)

/-- `d.get(k, default)`. -/
def getFieldD (m : JObj) (k : String) (d : JVal) : JVal :=
  (getField m k).getD d

/-- Python `==` between a value from a JSON record and a string literal:
true only for an equal string. -/
def optEqStr (v : Option JVal) (s : String) : Bool :=
  match v with
  | some (.jstr t) => t == s
  | _ => false

/-! ## Streaming data model (`StreamUpdate`, `ClaudeResponse`) -/

/-- A tool call collected by `_parse_stream_message`
(`block.get("name")`, `block.get("input", {})`). -/
structure ToolCall where
  name : Option JVal
  input : JVal

/-- A tool record collected by `_handle_process_output`
(name, input and id of a `tool_use` block). -/
structure ToolUsed where
  name : Option JVal
  input : JVal
  id : Option JVal

/-- The fields of `StreamUpdate` exercised by the executor (the enhanced
fields `timestamp`, `progress`, `error_info`, `execution_id` keep their
`None` defaults everywhere in `cli_executor.py` and are omitted). -/
structure StreamUpdate where
  type : String
  content : Option String := none
  tool_calls : Option (List ToolCall) := none
  metadata : Option JObj := none

/-- `ClaudeResponse`.  `session_id` and `cost` are declared as `str` and
`float` in the dataclass but are filled with whatever JSON value the last
`result` record carried, so they are embedded as `JVal`. -/
structure ClaudeResponse where
  content : String
  session_id : JVal
  cost : JVal := .jnum 0
  duration_ms : Nat := 0
  num_turns : Nat := 0
  is_error : Bool := false
  error_type : Option String := none
  tools_used : List ToolUsed := []

/-! ## Event classifier (`ClaudeProcessManager._parse_stream_message`) -/

/-- Iterating `msg.get("content", [])` and keeping the `isinstance(block,
dict)` elements: a JSON array yields its elements, of which only objects are
dicts; iterating a string or a dict yields strings (characters resp. keys),
none of which are dicts; any other value is not iterable and raises
`TypeError`. -/
def dictBlocks : JVal → Except String (List JObj)
  | .jarr xs =>
    .ok (xs.filterMap (fun v => match v with | .jobj f => some f | _ => none))
  | .jstr _ => .ok []
  | .jobj _ => .ok []
  | _ => .error "TypeError: object is not iterable"

/-- The `tool_use` arm of the block loops: a dict block whose `type` field
equals `"tool_use"` contributes a tool call. -/
def toolUseOf (b : JObj) : Option ToolCall :=
  if optEqStr (getField b "type") "tool_use" then
    some ⟨getField b "name", getFieldD b "input" (.jobj [])⟩
  else none

/-- The `tool_use` arm of the extraction loop in `_handle_process_output`,
which also records the block id. -/
def toolUsedOf (b : JObj) : Option ToolUsed :=
  if optEqStr (getField b "type") "tool_use" then
    some ⟨getField b "name", getFieldD b "input" (.jobj []), getField b "id"⟩
  else none

/-- The `text` arm of the block loops: a dict block whose `type` field equals
`"text"` contributes `block.get("text", "")`. -/
def textOf (b : JObj) : Option JVal :=
  if optEqStr (getField b "type") "text" then
    some (getFieldD b "text" (.jstr ""))
  else none

/-- `", ".join` element: `t["name"]` must be a `str`, otherwise `join`
raises `TypeError`. -/
def joinName (t : ToolCall) : Except String String :=
  match t.name with
  | some (.jstr s) => .ok s
  | _ => .error "TypeError: sequence item: expected str instance"

/-- `"\n".join` element: each collected text must be a `str`. -/
def asPyStr : JVal → Except String String
  | .jstr s => .ok s
  | _ => .error "TypeError: sequence item: expected str instance"

/-- Rendering of a value inside a Python f-string (`str(value)`); only the
string case is reached by any claim, the other cases are schematic. -/
def displayJVal : JVal → String
  | .jstr s => s
  | .jnum n => toString n
  | .jbool b => if b then "True" else "False"
  | .jnull => "None"
  | .jarr _ => "<list>"
  | .jobj _ => "<dict>"

/-- `ClaudeProcessManager._parse_stream_message`.  Raising paths (a
non-iterable `content` value, a tool name that is not a string handed to
`", ".join`, a text that is not a string handed to `"\n".join`) are embedded
as `Except.error`. -/
def parseStreamMessage (m : JObj) : Except String (Option StreamUpdate) :=
  if optEqStr (getField m "type") "assistant" then
    match dictBlocks (getFieldD m "content" (.jarr [])) with
    | .error e => .error e
    | .ok blocks =>
      if !(blocks.filterMap toolUseOf).isEmpty then
        match (blocks.filterMap toolUseOf).mapM joinName with
        | .error e => .error e
        | .ok names =>
          .ok (some { type := "assistant",
                      content := some ("Using tools: " ++ String.intercalate ", " names),
                      tool_calls := some (blocks.filterMap toolUseOf) })
      else if !(blocks.filterMap textOf).isEmpty then
        match (blocks.filterMap textOf).mapM asPyStr with
        | .error e => .error e
        | .ok texts =>
          .ok (some { type := "assistant",
                      content := some (String.intercalate "\n" texts) })
      else
        .ok none
  else if optEqStr (getField m "type") "tool_result" then
    .ok (some { type := "tool_result",
                content := some ("Tool completed: "
                  ++ displayJVal (getFieldD m "tool_use_id" (.jstr "unknown"))),
                metadata := some m })
  else if optEqStr (getField m "type") "result" then
    .ok (some { type := "result",
                content := some "Execution completed",
                metadata := some [("cost", getFieldD m "total_cost_usd" (.jnum 0)),
                                  ("session_id", getFieldD m "session_id" (.jstr ""))] })
  else
    .ok none

/-! ## Result aggregator (`ClaudeProcessManager._handle_process_output`) -/

/-- `collections.deque(maxlen=cap).append`: a full deque silently drops its
oldest (leftmost) entry. -/
def dequeAppend (cap : Nat) (buf : List α) (x : α) : List α :=
  if cap ≤ buf.length then buf.tail ++ [x] else buf ++ [x]

/-- One line handed to the read loop of `_handle_process_output`, after
`json.loads` (itself external library code): either a decode failure with the
raw line text and the exception text, or the parsed JSON value with the raw
line text. -/
inductive LineResult where
  | badJson (raw : String) (err : String)
  | parsed (raw : String) (v : JVal)

/-- The mutable loop state of `_handle_process_output`.  `deliveredUpdates`
records the updates handed to the stream callback and `callbackFailures`
counts the caught-and-logged callback exceptions (the `logger` calls
themselves are external I/O and have no further effect). -/
structure AggState where
  messageBuffer : List JObj := []
  resultData : Option JObj := none
  parsingErrors : List String := []
  allContent : List JVal := []
  allTools : List ToolUsed := []
  deliveredUpdates : List StreamUpdate := []
  callbackFailures : Nat := 0

/-- `if update and stream_callback: try: await stream_callback(update) except
...: logger.warning(...)`.  The callback is modelled by whether it raises on
a given update; either way the exception is caught. -/
def deliverUpdate (cb : Option (StreamUpdate → Bool)) (upd : Option StreamUpdate)
    (s : AggState) : AggState :=
  match upd, cb with
  | some u, some f =>
    { s with deliveredUpdates := s.deliveredUpdates ++ [u],
             callbackFailures := s.callbackFailures + (if f u then 1 else 0) }
  | _, _ => s

/-- The `if msg.get("type") == "assistant"` extraction block of
`_handle_process_output` (collect text blocks into `all_content` and
`tool_use` blocks into `all_tools`). -/
def extractAssistant (m : JObj) (s : AggState) : Except String AggState :=
  if optEqStr (getField m "type") "assistant" then
    match dictBlocks (getFieldD m "content" (.jarr [])) with
    | .error e => .error e
    | .ok blocks =>
      .ok { s with allContent := s.allContent ++ blocks.filterMap textOf,
                   allTools := s.allTools ++ blocks.filterMap toolUsedOf }
  else .ok s

/-- The `if msg.get("type") == "result": result_data = msg` step. -/
def recordResult (m : JObj) (s : AggState) : AggState :=
  if optEqStr (getField m "type") "result" then { s with resultData := some m }
  else s

/-- The body of the read loop for one structurally valid message. -/
def stepParsed (cb : Option (StreamUpdate → Bool)) (s : AggState) (m : JObj) :
    Except String AggState :=
  let s1 := { s with messageBuffer := dequeAppend 1000 s.messageBuffer m }
  match parseStreamMessage m with
  | .error e => .error e
  | .ok upd =>
    match extractAssistant m (deliverUpdate cb upd s1) with
    | .error e => .error e
    | .ok s3 => .ok (recordResult m s3)

/-- The body of the read loop of `_handle_process_output` for one line:
a JSON decode failure or a value that is not a dict containing `"type"`
records a diagnostic and continues; only `json.JSONDecodeError` is caught, so
any exception raised further down propagates. -/
def stepLine (cb : Option (StreamUpdate → Bool)) (s : AggState) (l : LineResult) :
    Except String AggState :=
  match l with
  | .badJson _raw err =>
    .ok { s with parsingErrors := s.parsingErrors ++ ["JSON decode error: " ++ err] }
  | .parsed raw v =>
    match v with
    | .jobj m =>
      if (getField m "type").isSome then stepParsed cb s m
      else
        .ok { s with parsingErrors := s.parsingErrors ++ ["Invalid message: " ++ raw.take 100] }
    | _ =>
      .ok { s with parsingErrors := s.parsingErrors ++ ["Invalid message: " ++ raw.take 100] }

/-- The whole read loop (`async for line in self._read_stream_bounded(...)`). -/
def processLines (cb : Option (StreamUpdate → Bool)) (s : AggState) :
    List LineResult → Except String AggState
  | [] => .ok s
  | l :: ls =>
    match stepLine cb s l with
    | .error e => .error e
    | .ok s1 => processLines cb s1 ls

/-- `"\n".join(all_content) if all_content else "No response"`: the check is
on the emptiness of the collected *list*, and `join` raises on a non-`str`
element. -/
def joinedContent (xs : List JVal) : Except String String :=
  if xs.isEmpty then .ok "No response"
  else
    match xs.mapM asPyStr with
    | .error e => .error e
    | .ok ss => .ok (String.intercalate "\n" ss)

/-- `ClaudeProcessManager._handle_process_output`: consume the stream, wait
for the exit status (`returnCode`), and build the final response.  On a
non-zero exit status the captured standard error (`stderrText`, already
decoded with `errors="replace"`) is wrapped in an error-flagged response; on
a zero exit status the aggregation result is returned. -/
def handleProcessOutput (cb : Option (StreamUpdate → Bool)) (lines : List LineResult)
    (returnCode : Int) (stderrText : String) : Except String ClaudeResponse :=
  match processLines cb {} lines with
  | .error e => .error e
  | .ok s =>
    if returnCode != 0 then
      .ok { content := "Error: " ++ stderrText, session_id := .jstr "",
            is_error := true, error_type := some "process_error" }
    else
      match joinedContent s.allContent with
      | .error e => .error e
      | .ok contentText =>
        .ok { content := contentText,
              session_id :=
                match s.resultData with
                | some m => getFieldD m "session_id" (.jstr "")
                | none => .jstr "",
              cost :=
                match s.resultData with
                | some m => getFieldD m "total_cost_usd" (.jnum 0)
                | none => .jnum 0,
              duration_ms := 0,
              num_turns := s.messageBuffer.length,
              tools_used := s.allTools }

/-! ## Process lifecycle (`ClaudeProcessManager.execute_command`) -/

/-- The configuration fields of `Settings` used by the executor and the rate
limiter, with their declared defaults. -/
structure Settings where
  claude_max_turns : Nat := 10
  claude_timeout_seconds : Nat := 900
  rate_limit_requests : Nat := 10
  rate_limit_window : Int := 60

/-- `self.active_processes[process_id] = process` on a table modelled by its
key set. -/
def tableInsert (tbl : List String) (pid : String) : List String :=
  if pid ∈ tbl then tbl else tbl ++ [pid]

/-- `if process_id in self.active_processes: del self.active_processes[process_id]`. -/
def tableDelete (tbl : List String) (pid : String) : List String :=
  tbl.filter (fun k => k != pid)

/-- How the body of `execute_command`'s `try` block can end:
`_start_process` raises, the awaited `_handle_process_output` returns within
the budget, `asyncio.wait_for` expires, or any other exception is raised. -/
inductive RunOutcome where
  | spawnFail (msg : String)
  | success (resp : ClaudeResponse)
  | timeout
  | otherExc (msg : String)

/-- What `execute_command` does from the caller's point of view. -/
inductive ExecResult where
  | returned (resp : ClaudeResponse)
  | raisedTimeout (msg : String)
  | raisedOther (msg : String)

/-- Observable end state of one `execute_command` invocation. -/
structure ExecEnd where
  table : List String
  result : ExecResult
  killedChild : Bool
  awaitedChild : Bool

/-- `ClaudeProcessManager.execute_command` for one invocation with generated
id `pid`, starting from table `tbl`: on spawn success the id is registered;
on `asyncio.TimeoutError` the child is killed and awaited if the id is still
in the table, and a `TimeoutError` is raised; any other exception is
re-raised; the `finally` block deletes the id from the table if present, on
every path. -/
def executeCommand (cfg : Settings) (tbl : List String) (pid : String)
    (o : RunOutcome) : ExecEnd :=
  match o with
  | .spawnFail e =>
    { table := tableDelete tbl pid, result := .raisedOther e,
      killedChild := false, awaitedChild := false }
  | .success r =>
    { table := tableDelete (tableInsert tbl pid) pid, result := .returned r,
      killedChild := false, awaitedChild := false }
  | .timeout =>
    { table := tableDelete (tableInsert tbl pid) pid,
      result := .raisedTimeout ("Claude Code timed out after "
        ++ toString cfg.claude_timeout_seconds ++ "s"),
      killedChild := decide (pid ∈ tableInsert tbl pid),
      awaitedChild := decide (pid ∈ tableInsert tbl pid) }
  | .otherExc e =>
    { table := tableDelete (tableInsert tbl pid) pid, result := .raisedOther e,
      killedChild := false, awaitedChild := false }

/-! ## Request gate (`RateLimiter` in `security/validator.py`) -/

/-- The in-memory rate limiter: `requests` models the
`defaultdict(deque)` keyed by user id (default: empty), `limit` and `window`
come from the settings.  `time.time()` instants are modelled as integers: the
source only subtracts the (integer) window from an instant and compares, so
any ordered time domain works and no fractional arithmetic is needed. -/
structure RateLimiter where
  requests : Int → List Int
  limit : Nat
  window : Int

/-- The `while user_requests and user_requests[0] < now - self.window:
user_requests.popleft()` loop. -/
def pruneOld (cutoff : Int) : List Int → List Int
  | [] => []
  | t :: ts => if t < cutoff then pruneOld cutoff ts else t :: ts

/-- `RateLimiter.is_allowed`: prune old timestamps from the front of the
caller's deque; admit and record `now` if the remaining count is below the
limit, otherwise reject. -/
def isAllowed (rl : RateLimiter) (uid : Int) (now : Int) : Bool × RateLimiter :=
  let pruned := pruneOld (now - rl.window) (rl.requests uid)
  if pruned.length < rl.limit then
    (true, { rl with requests := fun u => if u = uid then pruned ++ [now] else rl.requests u })
  else
    (false, { rl with requests := fun u => if u = uid then pruned else rl.requests u })

/-- A sequence of `is_allowed` checks for one caller, returning the verdicts
in order. -/
def processRequests (rl : RateLimiter) (uid : Int) : List Int → RateLimiter × List Bool
  | [] => (rl, [])
  | t :: ts =>
    let r := isAllowed rl uid t
    let rest := processRequests r.2 uid ts
    (rest.1, r.1 :: rest.2)

/-! ## Derived notions used in the statements -/

/-- Whether a line passes the structural check of the read loop:
`isinstance(msg, dict) and "type" in msg`. -/
def jvalDictWithType : JVal → Bool
  | .jobj m => (getField m "type").isSome
  | _ => false

/-- The result record carried by one line, if the line is a structurally
valid record whose discriminator is `"result"`. -/
def lineResultRecord : LineResult → Option JObj
  | .parsed _ (.jobj m) =>
    if optEqStr (getField m "type") "result" then some m else none
  | _ => none

/-- The last result record of a stream (the spec's last-wins record). -/
def lastResultRecord : List LineResult → Option JObj
  | [] => none
  | l :: ls =>
    match lastResultRecord ls with
    | some m => some m
    | none => lineResultRecord l

/-- Everything in the loop state except the count of caught callback
exceptions. -/
def aggView (s : AggState) :
    List JObj × Option JObj × List String × List JVal × List ToolUsed × List StreamUpdate :=
  (s.messageBuffer, s.resultData, s.parsingErrors, s.allContent, s.allTools,
   s.deliveredUpdates)

/-- `sub` occurs as a contiguous substring of `s`. -/
def strContains (s sub : String) : Prop := ∃ pre post, s = pre ++ (sub ++ post)

/-- Scenario record: an `assistant` message with a single text block
`"Hello"`. -/
def helloMsg : JObj :=
  [("type", .jstr "assistant"),
   ("content", .jarr [.jobj [("type", .jstr "text"), ("text", .jstr "Hello")]])]

/-- Scenario record: an `assistant` message with a single `tool_use` block
named `"Read"`. -/
def readMsg : JObj :=
  [("type", .jstr "assistant"),
   ("content", .jarr [.jobj [("type", .jstr "tool_use"), ("name", .jstr "Read")]])]

/-- Scenario record: an `assistant` message with one empty text block. -/
def emptyTextMsg : JObj :=
  [("type", .jstr "assistant"),
   ("content", .jarr [.jobj [("type", .jstr "text"), ("text", .jstr "")]])]

/-- Scenario records: two `result` records with different cost and session
fields. -/
def resMsgA : JObj :=
  [("type", .jstr "result"), ("total_cost_usd", .jnum 5), ("session_id", .jstr "a")]

/-- Second (last-wins) `result` record. -/
def resMsgB : JObj :=
  [("type", .jstr "result"), ("total_cost_usd", .jnum 7), ("session_id", .jstr "b")]


/-! ## Proofs -/

lemma drainAux_cons_ten (rest : List Nat) :
    drainAux (10 :: rest) = ([] :: (drainAux rest).1, (drainAux rest).2) := by
  simp [drainAux]

lemma drainAux_cons_ne {b : Nat} (hb : b ≠ 10) (rest : List Nat) :
    drainAux (b :: rest)
      = (match drainAux rest with
         | (l :: ls, r) => ((b :: l) :: ls, r)
         | ([], r) => ([], b :: r)) := by
  simp [drainAux, hb]

lemma drainAux_of_not_mem {l : List Nat} (h : 10 ∉ l) : drainAux l = ([], l) := by
  induction l with
  | nil => rfl
  | cons b rest ih =>
    have hb : b ≠ 10 := by intro hcon; exact h (hcon ▸ List.mem_cons_self _ _)
    have hr : 10 ∉ rest := fun hc => h (List.mem_cons_of_mem _ hc)
    rw [drainAux_cons_ne hb, ih hr]

lemma drainAux_of_mem {buf : List Nat} (h : 10 ∈ buf) :
    drainAux buf
      = (buf.takeWhile (fun b => b != 10) ::
           (drainAux ((buf.dropWhile (fun b => b != 10)).tail)).1,
         (drainAux ((buf.dropWhile (fun b => b != 10)).tail)).2) := by
  induction buf with
  | nil => simp at h
  | cons b rest ih =>
    by_cases hb : b = 10
    · subst hb
      rw [drainAux_cons_ten, List.takeWhile_cons, List.dropWhile_cons]
      simp
    · have hr : 10 ∈ rest := by
        rcases List.mem_cons.mp h with h1 | h1
        · exact absurd h1.symm hb
        · exact h1
      have hbt : (b != 10) = true := by simpa using hb
      rw [drainAux_cons_ne hb, ih hr, List.takeWhile_cons, List.dropWhile_cons]
      simp only [hbt, if_true]

lemma drainLines_eq_drainAux (buf : List Nat) : drainLines buf = drainAux buf := by
  generalize hn : buf.length = n
  induction n using Nat.strong_induction_on generalizing buf with
  | _ n ih =>
    subst hn
    rw [drainLines]
    split
    · next h =>
      have hd : buf.dropWhile (fun b => b != 10) ≠ [] := by
        intro hcon
        have hall := List.dropWhile_eq_nil_iff.mp hcon 10 h
        simp at hall
      have h3 : buf ≠ [] := by rintro rfl; simp at h
      have hlt : ((buf.dropWhile (fun b => b != 10)).tail).length < buf.length := by
        have h1 : (buf.dropWhile (fun b => b != 10)).length ≤ buf.length :=
          (List.dropWhile_sublist _).length_le
        have h2 : 1 ≤ (buf.dropWhile (fun b => b != 10)).length :=
          List.length_pos.mpr hd
        have h4 : 1 ≤ buf.length := List.length_pos.mpr h3
        simp only [List.length_tail]
        omega
      rw [ih _ hlt _ rfl, drainAux_of_mem h]
    · next h =>
      rw [drainAux_of_not_mem h]

lemma drainAux_no_newline_rest (l : List Nat) : 10 ∉ (drainAux l).2 := by
  induction l with
  | nil => simp [drainAux]
  | cons b rest ih =>
    by_cases hb : b = 10
    · subst hb; rw [drainAux_cons_ten]; exact ih
    · rw [drainAux_cons_ne hb]
      rcases hda : drainAux rest with ⟨ls, r⟩
      rw [hda] at ih
      cases ls with
      | nil =>
        simp only []
        intro hc
        rcases List.mem_cons.mp hc with h1 | h1
        · exact hb h1.symm
        · exact ih h1
      | cons l0 ls' => simpa using ih

lemma drainAux_append (x y : List Nat) :
    drainAux (x ++ y)
      = ((drainAux x).1 ++ (drainAux ((drainAux x).2 ++ y)).1,
         (drainAux ((drainAux x).2 ++ y)).2) := by
  induction x with
  | nil => simp [drainAux]
  | cons b x' ih =>
    by_cases hb : b = 10
    · subst hb
      rw [List.cons_append, drainAux_cons_ten, drainAux_cons_ten, ih]
      simp
    · rcases hx : drainAux x' with ⟨ls, r⟩
      rw [List.cons_append, drainAux_cons_ne hb (x' ++ y), drainAux_cons_ne hb x',
        ih, hx]
      cases ls with
      | cons l0 ls' => simp
      | nil =>
        simp only [List.nil_append]
        rcases hry : drainAux (r ++ y) with ⟨ms, s⟩
        rw [List.cons_append, drainAux_cons_ne hb (r ++ y), hry]

/-- Reader invariant: starting from a remainder that contains no newline byte,
the lines yielded across the whole chunk sequence are the complete lines of
the concatenation of the remainder and all chunks. -/
lemma readChunks_eq_drainAux (cs : List (List Nat)) (buf : List Nat)
    (h : 10 ∉ buf) : readChunks cs buf = (drainAux (buf ++ cs.flatten)).1 := by
  induction cs generalizing buf with
  | nil =>
    simp [readChunks, drainAux_of_not_mem h]
  | cons c cs' ih =>
    simp only [readChunks, drainLines_eq_drainAux, List.flatten_cons]
    have hrem : 10 ∉ (drainAux (buf ++ c)).2 := drainAux_no_newline_rest _
    rw [ih _ hrem]
    rw [← List.append_assoc]
    rw [drainAux_append (buf ++ c) cs'.flatten]

lemma readChunks_single (s : List Nat) :
    readChunks [s] [] = (drainLines s).1 := by
  simp [readChunks]

/-- Trailing chunk without a newline contributes nothing. -/
lemma drainAux_append_no_newline (x t : List Nat) (ht : 10 ∉ t) :
    (drainAux (x ++ t)).1 = (drainAux x).1 := by
  rw [drainAux_append]
  have hr : 10 ∉ (drainAux x).2 := drainAux_no_newline_rest x
  have hrt : 10 ∉ (drainAux x).2 ++ t := by
    intro hc
    rcases List.mem_append.mp hc with h1 | h1
    · exact hr h1
    · exact ht h1
  rw [drainAux_of_not_mem hrt]
  simp

/-- C2: for every byte sequence emitted by the child and every partition of it
into read chunks, the sequence of lines yielded by `_read_stream_bounded` is
the same as when the whole sequence arrives in one chunk; consequently the
decoded lines (decoding is applied per complete line) also agree. -/
theorem C2_chunking_invariance (chunks : List (List Nat)) :
    readChunks chunks [] = readChunks [chunks.flatten] []
    ∧ ∀ decode : List Nat → String,
        (readChunks chunks []).map decode
          = (readChunks [chunks.flatten] []).map decode := by
  have h : readChunks chunks [] = readChunks [chunks.flatten] [] := by
    rw [readChunks_single, drainLines_eq_drainAux,
      readChunks_eq_drainAux chunks [] (by simp)]
    simp
  exact ⟨h, fun d => by rw [h]⟩

/-- C9: bytes left after the last line terminator when the stream ends are
never yielded as a line by `_read_stream_bounded`: appending a final chunk
that contains no newline byte leaves the yielded line sequence unchanged, so
a record emitted without a trailing newline is silently discarded. -/
theorem C9_trailing_bytes_discarded (cs : List (List Nat)) (t : List Nat)
    (ht : 10 ∉ t) : readChunks (cs ++ [t]) [] = readChunks cs [] := by
  rw [readChunks_eq_drainAux (cs ++ [t]) [] (by simp),
    readChunks_eq_drainAux cs [] (by simp)]
  simp only [List.nil_append, List.flatten_append, List.flatten_cons,
    List.flatten_nil, List.append_nil]
  exact drainAux_append_no_newline _ _ ht

/-- Witness for C9 at a concrete input: the child emits `"H\n"` followed by a
chunk `"X"` with no trailing newline; the trailing byte is discarded. -/
theorem C9_trailing_bytes_discarded_witness :
    (10 ∉ ([88] : List Nat))
    ∧ readChunks [[72, 10], [88]] [] = readChunks [[72, 10]] [] := by
  refine ⟨by decide, C9_trailing_bytes_discarded [[72, 10]] [88] (by decide)⟩

/-! ### Loop-state characterization -/

/-- Closed form of one loop-body step for a structurally valid message. -/
lemma stepParsed_eq (cb : Option (StreamUpdate → Bool)) (s : AggState) (m : JObj) :
    stepParsed cb s m
      = match parseStreamMessage m with
        | .error e => .error e
        | .ok upd =>
          match (if optEqStr (getField m "type") "assistant"
                 then dictBlocks (getFieldD m "content" (.jarr []))
                 else .ok []) with
          | .error e => .error e
          | .ok blocks =>
            .ok { messageBuffer := dequeAppend 1000 s.messageBuffer m,
                  resultData :=
                    if optEqStr (getField m "type") "result" then some m
                    else s.resultData,
                  parsingErrors := s.parsingErrors,
                  allContent := s.allContent ++ blocks.filterMap textOf,
                  allTools := s.allTools ++ blocks.filterMap toolUsedOf,
                  deliveredUpdates := s.deliveredUpdates
                    ++ (match upd, cb with | some u, some _ => [u] | _, _ => []),
                  callbackFailures := s.callbackFailures
                    + (match upd, cb with
                       | some u, some f => (if f u then 1 else 0)
                       | _, _ => 0) } := by
  unfold stepParsed deliverUpdate extractAssistant recordResult
  rcases hp : parseStreamMessage m with e | upd
  · rfl
  · cases upd with
    | none =>
      cases cb with
      | none =>
        by_cases ha : optEqStr (getField m "type") "assistant"
        · simp only [ha, if_true]
          rcases hdb : dictBlocks (getFieldD m "content" (.jarr [])) with e | blocks
          · rfl
          · by_cases hr : optEqStr (getField m "type") "result" <;> simp [hr]
        · simp only [ha, if_false]
          by_cases hr : optEqStr (getField m "type") "result" <;> simp [hr]
      | some f =>
        by_cases ha : optEqStr (getField m "type") "assistant"
        · simp only [ha, if_true]
          rcases hdb : dictBlocks (getFieldD m "content" (.jarr [])) with e | blocks
          · rfl
          · by_cases hr : optEqStr (getField m "type") "result" <;> simp [hr]
        · simp only [ha, if_false]
          by_cases hr : optEqStr (getField m "type") "result" <;> simp [hr]
    | some u =>
      cases cb with
      | none =>
        by_cases ha : optEqStr (getField m "type") "assistant"
        · simp only [ha, if_true]
          rcases hdb : dictBlocks (getFieldD m "content" (.jarr [])) with e | blocks
          · rfl
          · by_cases hr : optEqStr (getField m "type") "result" <;> simp [hr]
        · simp only [ha, if_false]
          by_cases hr : optEqStr (getField m "type") "result" <;> simp [hr]
      | some f =>
        by_cases ha : optEqStr (getField m "type") "assistant"
        · simp only [ha, if_true]
          rcases hdb : dictBlocks (getFieldD m "content" (.jarr [])) with e | blocks
          · rfl
          · by_cases hr : optEqStr (getField m "type") "result" <;> simp [hr]
        · simp only [ha, if_false]
          by_cases hr : optEqStr (getField m "type") "result" <;> simp [hr]

lemma stepLine_resultData {cb : Option (StreamUpdate → Bool)} {s : AggState}
    {l : LineResult} {s' : AggState} (hok : stepLine cb s l = .ok s') :
    s'.resultData
      = match lineResultRecord l with
        | some m => some m
        | none => s.resultData := by
  cases l with
  | badJson raw err =>
    simp only [stepLine, Except.ok.injEq] at hok
    subst hok
    rfl
  | parsed raw v =>
    cases v with
    | jobj m =>
      by_cases ht : (getField m "type").isSome
      · simp only [stepLine, ht, if_true] at hok
        rw [stepParsed_eq] at hok
        rcases hp : parseStreamMessage m with e | upd <;> rw [hp] at hok
        · cases hok
        · rcases hdb : (if optEqStr (getField m "type") "assistant"
              then dictBlocks (getFieldD m "content" (.jarr []))
              else .ok []) with e | blocks <;> rw [hdb] at hok
          · cases hok
          · simp only [Except.ok.injEq] at hok
            subst hok
            simp only [lineResultRecord]
            by_cases hr : optEqStr (getField m "type") "result" <;> simp [hr]
      · have ht' : (getField m "type").isSome = false := by
          simpa using ht
        simp only [stepLine, ht', Bool.false_eq_true, if_false,
          Except.ok.injEq] at hok
        subst hok
        have hr : optEqStr (getField m "type") "result" = false := by
          rcases hgf : getField m "type" with _ | v
          · rfl
          · rw [hgf] at ht'; simp at ht'
        simp [lineResultRecord, hr]
    | jnull => simp only [stepLine, Except.ok.injEq] at hok; subst hok; rfl
    | jbool b => simp only [stepLine, Except.ok.injEq] at hok; subst hok; rfl
    | jnum n => simp only [stepLine, Except.ok.injEq] at hok; subst hok; rfl
    | jstr t => simp only [stepLine, Except.ok.injEq] at hok; subst hok; rfl
    | jarr xs => simp only [stepLine, Except.ok.injEq] at hok; subst hok; rfl

lemma processLines_resultData {cb : Option (StreamUpdate → Bool)}
    {lines : List LineResult} {s s' : AggState}
    (hok : processLines cb s lines = .ok s') :
    s'.resultData
      = match lastResultRecord lines with
        | some m => some m
        | none => s.resultData := by
  induction lines generalizing s with
  | nil =>
    simp only [processLines, Except.ok.injEq] at hok
    subst hok
    rfl
  | cons l ls ih =>
    simp only [processLines] at hok
    rcases hst : stepLine cb s l with e | s1 <;> rw [hst] at hok
    · cases hok
    · have h1 := stepLine_resultData hst
      have h2 := ih hok
      simp only [lastResultRecord]
      rcases hlr : lastResultRecord ls with _ | m <;> rw [hlr] at h2
      · rw [h2, h1]
      · rw [h2]

/-- C3: with exit status zero, the cost and session identifier of the
returned response come from the last record whose discriminator is
`"result"` (fields `total_cost_usd` and `session_id`, with the `get`
defaults); if the stream carried no such record, cost is `0` and the session
identifier is the empty string; the response is not error-flagged. -/
theorem C3_result_last_wins (cb : Option (StreamUpdate → Bool))
    (lines : List LineResult) (stderrText : String) (resp : ClaudeResponse)
    (hok : handleProcessOutput cb lines 0 stderrText = .ok resp) :
    resp.is_error = false ∧ resp.error_type = none
    ∧ (match lastResultRecord lines with
       | some m =>
         resp.cost = getFieldD m "total_cost_usd" (.jnum 0)
         ∧ resp.session_id = getFieldD m "session_id" (.jstr "")
       | none => resp.cost = .jnum 0 ∧ resp.session_id = .jstr "") := by
  unfold handleProcessOutput at hok
  rcases hpl : processLines cb {} lines with e | s <;> rw [hpl] at hok
  · cases hok
  · simp only [show ((0 : Int) != 0) = false from rfl, Bool.false_eq_true,
      if_false] at hok
    rcases hj : joinedContent s.allContent with e | ct <;> rw [hj] at hok
    · cases hok
    · simp only [Except.ok.injEq] at hok
      subst hok
      refine ⟨rfl, rfl, ?_⟩
      have hrd := processLines_resultData hpl
      rcases hlr : lastResultRecord lines with _ | m <;> rw [hlr] at hrd
      · have : s.resultData = none := hrd
        simp [this]
      · simp [hrd]

/-- Witness for C3: a stream with two `result` records (cost 5/session "a",
then cost 7/session "b"); the response takes the later record's fields. -/
theorem C3_result_last_wins_witness :
    (handleProcessOutput none [.parsed "" (.jobj resMsgA), .parsed "" (.jobj resMsgB)] 0 ""
      = .ok { content := "No response", session_id := .jstr "b", cost := .jnum 7,
              duration_ms := 0, num_turns := 2, is_error := false,
              error_type := none, tools_used := [] })
    ∧ ({ content := "No response", session_id := .jstr "b", cost := .jnum 7,
         duration_ms := 0, num_turns := 2, is_error := false,
         error_type := none, tools_used := [] } : ClaudeResponse).is_error = false
    ∧ ({ content := "No response", session_id := .jstr "b", cost := .jnum 7,
         duration_ms := 0, num_turns := 2, is_error := false,
         error_type := none, tools_used := [] } : ClaudeResponse).cost = .jnum 7 := by
  have h := C3_result_last_wins none
    [.parsed "" (.jobj resMsgA), .parsed "" (.jobj resMsgB)] ""
    { content := "No response", session_id := .jstr "b", cost := .jnum 7,
      duration_ms := 0, num_turns := 2, is_error := false,
      error_type := none, tools_used := [] } rfl
  exact ⟨rfl, h.1, h.2.2.1⟩

/-! ### Rolling buffer bound -/

lemma dequeAppend_length_le {buf : List JObj} (m : JObj)
    (h : buf.length ≤ 1000) : (dequeAppend 1000 buf m).length ≤ 1000 := by
  unfold dequeAppend
  split
  · next hfull =>
    simp only [List.length_append, List.length_tail, List.length_cons,
      List.length_nil]
    omega
  · next hroom =>
    simp only [List.length_append, List.length_cons, List.length_nil]
    omega

lemma stepLine_buffer_le {cb : Option (StreamUpdate → Bool)} {s : AggState}
    {l : LineResult} {s' : AggState} (hok : stepLine cb s l = .ok s')
    (h : s.messageBuffer.length ≤ 1000) : s'.messageBuffer.length ≤ 1000 := by
  cases l with
  | badJson raw err =>
    simp only [stepLine, Except.ok.injEq] at hok
    subst hok
    exact h
  | parsed raw v =>
    cases v with
    | jobj m =>
      by_cases ht : (getField m "type").isSome
      · simp only [stepLine, ht, if_true] at hok
        rw [stepParsed_eq] at hok
        rcases hp : parseStreamMessage m with e | upd <;> rw [hp] at hok
        · cases hok
        · rcases hdb : (if optEqStr (getField m "type") "assistant"
              then dictBlocks (getFieldD m "content" (.jarr []))
              else .ok []) with e | blocks <;> rw [hdb] at hok
          · cases hok
          · simp only [Except.ok.injEq] at hok
            subst hok
            exact dequeAppend_length_le m h
      · have ht' : (getField m "type").isSome = false := by simpa using ht
        simp only [stepLine, ht', Bool.false_eq_true, if_false,
          Except.ok.injEq] at hok
        subst hok
        exact h
    | jnull => simp only [stepLine, Except.ok.injEq] at hok; subst hok; exact h
    | jbool b => simp only [stepLine, Except.ok.injEq] at hok; subst hok; exact h
    | jnum n => simp only [stepLine, Except.ok.injEq] at hok; subst hok; exact h
    | jstr t => simp only [stepLine, Except.ok.injEq] at hok; subst hok; exact h
    | jarr xs => simp only [stepLine, Except.ok.injEq] at hok; subst hok; exact h

lemma processLines_buffer_le {cb : Option (StreamUpdate → Bool)}
    {lines : List LineResult} {s s' : AggState}
    (hok : processLines cb s lines = .ok s')
    (h : s.messageBuffer.length ≤ 1000) : s'.messageBuffer.length ≤ 1000 := by
  induction lines generalizing s with
  | nil =>
    simp only [processLines, Except.ok.injEq] at hok
    subst hok
    exact h
  | cons l ls ih =>
    simp only [processLines] at hok
    rcases hst : stepLine cb s l with e | s1 <;> rw [hst] at hok
    · cases hok
    · exact ih hok (stepLine_buffer_le hst h)

/-- C8: appending to the full rolling buffer evicts the oldest entry; the
buffer length never exceeds the capacity of 1000 across any step of the read
loop; and `num_turns` of the returned response is the final buffer length,
hence at most 1000 however many records the child emitted. -/
theorem C8_rolling_buffer_bound (cb : Option (StreamUpdate → Bool))
    (s s' : AggState) (l : LineResult) (lines : List LineResult)
    (stderrText : String) (st : AggState) (resp : ClaudeResponse) :
    (∀ (buf : List JObj) (m : JObj), buf.length = 1000 →
      dequeAppend 1000 buf m = buf.tail ++ [m])
    ∧ (s.messageBuffer.length ≤ 1000 → stepLine cb s l = .ok s' →
        s'.messageBuffer.length ≤ 1000)
    ∧ (processLines cb {} lines = .ok st →
        handleProcessOutput cb lines 0 stderrText = .ok resp →
        resp.num_turns = st.messageBuffer.length ∧ resp.num_turns ≤ 1000) := by
  refine ⟨?_, fun h hok => stepLine_buffer_le hok h, fun hpl hok => ?_⟩
  · intro buf m hlen
    unfold dequeAppend
    rw [if_pos (by omega)]
  · unfold handleProcessOutput at hok
    rw [hpl] at hok
    simp only [show ((0 : Int) != 0) = false from rfl, Bool.false_eq_true,
      if_false] at hok
    rcases hj : joinedContent st.allContent with e | ct <;> rw [hj] at hok
    · cases hok
    · simp only [Except.ok.injEq] at hok
      subst hok
      exact ⟨rfl, processLines_buffer_le hpl (by simp)⟩

/-- Witness for C8: a two-record stream; `num_turns` equals the final buffer
length 2 and is at most 1000. -/
theorem C8_rolling_buffer_bound_witness :
    (dequeAppend 1000 (List.replicate 1000 ([] : JObj)) [] =
      (List.replicate 1000 ([] : JObj)).tail ++ [[]])
    ∧ ({ content := "No response", session_id := .jstr "b", cost := .jnum 7,
         duration_ms := 0, num_turns := 2, is_error := false,
         error_type := none, tools_used := [] } : ClaudeResponse).num_turns ≤ 1000 := by
  have h := C8_rolling_buffer_bound none {} {} (.badJson "" "")
    [.parsed "" (.jobj resMsgA), .parsed "" (.jobj resMsgB)] ""
    { messageBuffer := [resMsgA, resMsgB], resultData := some resMsgB,
      parsingErrors := [], allContent := [], allTools := [],
      deliveredUpdates := [], callbackFailures := 0 }
    { content := "No response", session_id := .jstr "b", cost := .jnum 7,
      duration_ms := 0, num_turns := 2, is_error := false,
      error_type := none, tools_used := [] }
  exact ⟨h.1 _ _ (List.length_replicate 1000 _), (h.2.2 rfl rfl).2⟩

/-! ### Lifecycle and request gate -/

/-- C1: on every exit route of `execute_command` — normal completion,
timeout, spawn failure or any other exception — the invocation's generated
id is absent from `active_processes` afterwards; and when the wall-clock
budget (default 900 s) expires, the child is killed and awaited and a
`TimeoutError` is raised to the caller. -/
theorem C1_cleanup_every_path (cfg : Settings) (tbl : List String) (pid : String)
    (o : RunOutcome) :
    pid ∉ (executeCommand cfg tbl pid o).table
    ∧ (o = .timeout →
        (executeCommand cfg tbl pid o).killedChild = true
        ∧ (executeCommand cfg tbl pid o).awaitedChild = true
        ∧ (executeCommand cfg tbl pid o).result
            = .raisedTimeout ("Claude Code timed out after "
                ++ toString cfg.claude_timeout_seconds ++ "s"))
    ∧ ({} : Settings).claude_timeout_seconds = 900 := by
  have hdel : ∀ t : List String, pid ∉ tableDelete t pid := by
    intro t hc
    simp [tableDelete, List.mem_filter] at hc
  have hmem : pid ∈ tableInsert tbl pid := by
    by_cases h : pid ∈ tbl <;> simp [tableInsert, h]
  refine ⟨?_, ?_, rfl⟩
  · cases o <;> exact hdel _
  · rintro rfl
    exact ⟨decide_eq_true hmem, decide_eq_true hmem, rfl⟩

/-- Witness for C1 on the timeout path with a concrete table. -/
theorem C1_cleanup_every_path_witness :
    ("p" ∉ (executeCommand {} ["q"] "p" .timeout).table)
    ∧ (executeCommand {} ["q"] "p" .timeout).killedChild = true
    ∧ (executeCommand {} ["q"] "p" .timeout).awaitedChild = true := by
  obtain ⟨h1, h2, -⟩ := C1_cleanup_every_path {} ["q"] "p" .timeout
  obtain ⟨hk, ha, -⟩ := h2 rfl
  exact ⟨h1, hk, ha⟩

/-- C10: `is_allowed` first discards the timestamps older than the window
from the front of the caller's sequence (the pop loop is `dropWhile`), admits
exactly when the remaining count is below the limit, records the new
timestamp exactly on admission, and leaves other callers' sequences
untouched; with the default limit 10 and window 60, eleven requests of one
caller inside one window are admitted ten times and rejected the eleventh
time. -/
theorem C10_rate_limiter_sliding_window (rl : RateLimiter) (uid : Int) (now : Int) :
    (∀ (c : Int) (ts : List Int), pruneOld c ts = ts.dropWhile (fun t => t < c))
    ∧ (isAllowed rl uid now).1
        = decide ((pruneOld (now - rl.window) (rl.requests uid)).length < rl.limit)
    ∧ (isAllowed rl uid now).2.requests
        = (fun u => if u = uid then
             (if (pruneOld (now - rl.window) (rl.requests uid)).length < rl.limit
              then pruneOld (now - rl.window) (rl.requests uid) ++ [now]
              else pruneOld (now - rl.window) (rl.requests uid))
           else rl.requests u)
    ∧ (isAllowed rl uid now).2.limit = rl.limit
    ∧ (isAllowed rl uid now).2.window = rl.window
    ∧ (processRequests
        { requests := fun _ => [], limit := ({} : Settings).rate_limit_requests,
          window := ({} : Settings).rate_limit_window } 7
        [0, 1, 2, 3, 4, 5, 6, 7, 8, 9, 10]).2
      = [true, true, true, true, true, true, true, true, true, true, false] := by
  refine ⟨?_, ?_, ?_, ?_, ?_, by decide⟩
  · intro c ts
    induction ts with
    | nil => rfl
    | cons t ts ih =>
      rw [pruneOld, List.dropWhile_cons]
      by_cases h : t < c <;> simp [h, ih]
  · by_cases h : (pruneOld (now - rl.window) (rl.requests uid)).length < rl.limit <;>
      simp [isAllowed, h]
  · by_cases h : (pruneOld (now - rl.window) (rl.requests uid)).length < rl.limit <;>
      simp [isAllowed, h]
  · by_cases h : (pruneOld (now - rl.window) (rl.requests uid)).length < rl.limit <;>
      simp [isAllowed, h]
  · by_cases h : (pruneOld (now - rl.window) (rl.requests uid)).length < rl.limit <;>
      simp [isAllowed, h]

/-- C4: a non-zero exit status yields a returned (not raised) response with
the error flag set, error category `"process_error"`, and content containing
the captured standard-error text; in particular exit code 1 with stderr
`"disk full"` gives content containing `"disk full"`. -/
theorem C4_process_error_reported (cb : Option (StreamUpdate → Bool))
    (lines : List LineResult) (rc : Int) (stderrText : String) (s : AggState)
    (hrc : rc ≠ 0) (hpl : processLines cb {} lines = .ok s) :
    handleProcessOutput cb lines rc stderrText
      = .ok { content := "Error: " ++ stderrText, session_id := .jstr "",
              is_error := true, error_type := some "process_error" }
    ∧ strContains ("Error: " ++ stderrText) stderrText
    ∧ handleProcessOutput none [] 1 "disk full"
        = .ok { content := "Error: disk full", session_id := .jstr "",
                is_error := true, error_type := some "process_error" }
    ∧ strContains "Error: disk full" "disk full" := by
  refine ⟨?_, ⟨"Error: ", "", by rw [String.append_empty]⟩, rfl,
    ⟨"Error: ", "", rfl⟩⟩
  unfold handleProcessOutput
  rw [hpl]
  have hbne : (rc != 0) = true := by simpa using hrc
  rw [hbne]
  simp

/-- Witness for C4: exit code 2 with stderr `"x"` on an empty stream. -/
theorem C4_process_error_reported_witness :
    handleProcessOutput none [] 2 "x"
      = .ok { content := "Error: " ++ "x", session_id := .jstr "",
              is_error := true, error_type := some "process_error" }
    ∧ strContains ("Error: " ++ "x") "x" := by
  obtain ⟨h1, h2, -, -⟩ :=
    C4_process_error_reported none [] 2 "x" {} (by decide) rfl
  exact ⟨h1, h2⟩

/-- C7 counterexample: a zero-exit stream with one assistant record holding a
single empty text block aggregates to empty textual content, yet the
response content is the empty string, not `"No response"` — the caller does
receive an empty content field. -/
theorem C7_counterexample :
    handleProcessOutput none [.parsed "" (.jobj emptyTextMsg)] 0 ""
      = .ok { content := "", session_id := .jstr "", cost := .jnum 0,
              duration_ms := 0, num_turns := 1, is_error := false,
              error_type := none, tools_used := [] }
    ∧ ("" : String) ≠ "No response" := ⟨rfl, by decide⟩

/-- C7 amended: the placeholder `"No response"` is substituted exactly when
no text block at all was collected (`all_content` is the empty list); when
text blocks were collected, their newline-join is returned as-is and may be
the empty string. -/
theorem C7_amended_placeholder (cb : Option (StreamUpdate → Bool))
    (lines : List LineResult) (stderrText : String) (s : AggState)
    (resp : ClaudeResponse) (hpl : processLines cb {} lines = .ok s)
    (hempty : s.allContent = [])
    (hok : handleProcessOutput cb lines 0 stderrText = .ok resp) :
    resp.content = "No response" := by
  unfold handleProcessOutput at hok
  rw [hpl] at hok
  simp only [show ((0 : Int) != 0) = false from rfl, Bool.false_eq_true,
    if_false] at hok
  rw [hempty] at hok
  simp only [joinedContent, List.isEmpty_nil, if_true, Except.ok.injEq] at hok
  subst hok
  rfl

/-- Witness for C7 (amended) on the empty stream. -/
theorem C7_amended_placeholder_witness :
    handleProcessOutput none [] 0 ""
      = .ok { content := "No response", session_id := .jstr "", cost := .jnum 0,
              duration_ms := 0, num_turns := 0, is_error := false,
              error_type := none, tools_used := [] }
    ∧ ({ content := "No response", session_id := .jstr "", cost := .jnum 0,
         duration_ms := 0, num_turns := 0, is_error := false,
         error_type := none, tools_used := [] } : ClaudeResponse).content
        = "No response" := by
  refine ⟨rfl, C7_amended_placeholder none [] "" {} _ rfl rfl rfl⟩

/-! ### Malformed lines and listener failures -/

lemma stepLine_invalid {cb : Option (StreamUpdate → Bool)} {s : AggState}
    {raw : String} {v : JVal} (h : jvalDictWithType v = false) :
    stepLine cb s (.parsed raw v)
      = .ok { s with parsingErrors :=
          s.parsingErrors ++ ["Invalid message: " ++ raw.take 100] } := by
  cases v with
  | jobj m =>
    have ht : (getField m "type").isSome = false := by
      simpa [jvalDictWithType] using h
    simp [stepLine, ht]
  | jnull => rfl
  | jbool b => rfl
  | jnum n => rfl
  | jstr t => rfl
  | jarr xs => rfl

lemma stepLine_cb_aggView (f g : StreamUpdate → Bool) (s : AggState)
    (l : LineResult) :
    (stepLine (some f) s l).map aggView = (stepLine (some g) s l).map aggView := by
  cases l with
  | badJson raw err => rfl
  | parsed raw v =>
    cases v with
    | jobj m =>
      by_cases ht : (getField m "type").isSome
      · simp only [stepLine, ht, if_true, stepParsed_eq]
        rcases hp : parseStreamMessage m with e | upd
        · rfl
        · rcases hdb : (if optEqStr (getField m "type") "assistant"
              then dictBlocks (getFieldD m "content" (.jarr []))
              else .ok []) with e | blocks
          · simp [hdb]
          · cases upd <;> simp [hdb, Except.map, aggView]
      · have ht' : (getField m "type").isSome = false := by simpa using ht
        simp [stepLine, ht']
    | jnull => rfl
    | jbool b => rfl
    | jnum n => rfl
    | jstr t => rfl
    | jarr xs => rfl

/-- C6: a line that fails JSON parsing, or parses to a value that is not a
dict containing `"type"`, only records a diagnostic (no update, no other
state change); a raising listener is caught, leaving every part of the loop
state except the caught-failure count unchanged relative to any other
listener; and in each case the loop goes on to process all remaining
lines. -/
theorem C6_bad_lines_never_abort (cb : Option (StreamUpdate → Bool))
    (s : AggState) (raw err : String) (v : JVal)
    (f g : StreamUpdate → Bool) (l : LineResult) (ls : List LineResult) :
    (stepLine cb s (.badJson raw err)
      = .ok { s with parsingErrors :=
          s.parsingErrors ++ ["JSON decode error: " ++ err] })
    ∧ (jvalDictWithType v = false →
       stepLine cb s (.parsed raw v)
         = .ok { s with parsingErrors :=
             s.parsingErrors ++ ["Invalid message: " ++ raw.take 100] })
    ∧ ((stepLine (some f) s l).map aggView = (stepLine (some g) s l).map aggView)
    ∧ (processLines cb s (.badJson raw err :: ls)
       = processLines cb
           { s with parsingErrors :=
               s.parsingErrors ++ ["JSON decode error: " ++ err] } ls)
    ∧ (jvalDictWithType v = false →
       processLines cb s (.parsed raw v :: ls)
         = processLines cb
             { s with parsingErrors :=
                 s.parsingErrors ++ ["Invalid message: " ++ raw.take 100] } ls) := by
  refine ⟨rfl, fun h => stepLine_invalid h, stepLine_cb_aggView f g s l, rfl,
    fun h => ?_⟩
  rw [processLines, stepLine_invalid h]

/-- Witness for C6: a non-dict line (the number 5). -/
theorem C6_bad_lines_never_abort_witness :
    (jvalDictWithType (.jnum 5) = false)
    ∧ stepLine none {} (.parsed "5" (.jnum 5))
        = .ok { ({} : AggState) with parsingErrors :=
            ({} : AggState).parsingErrors ++ ["Invalid message: " ++ ("5").take 100] } := by
  obtain ⟨-, h2, -, -, -⟩ := C6_bad_lines_never_abort none {} "5" "e" (.jnum 5)
    (fun _ => true) (fun _ => false) (.badJson "" "") []
  exact ⟨rfl, h2 rfl⟩

/-- C5: for an `assistant` record, if the dict content blocks include at
least one `tool_use` block then `_parse_stream_message` returns exactly one
update whose content is `"Using tools: "` followed by the comma-separated
tool names and whose tool-call list holds every `tool_use` block (name and
input); otherwise, with at least one text block, one update joining the
texts with newlines; with neither, no update.  Scenario: a stream of two
assistant records -- text `"Hello"`, then a `tool_use` named `"Read"` --
aggregates to content `"Hello"` with exactly one tool entry named
`"Read"`. -/
theorem C5_assistant_classification (m : JObj) (blocks : List JObj)
    (hty : getField m "type" = some (.jstr "assistant"))
    (hblocks : dictBlocks (getFieldD m "content" (.jarr [])) = .ok blocks) :
    (∀ names, blocks.filterMap toolUseOf ≠ [] →
      (blocks.filterMap toolUseOf).mapM joinName = .ok names →
      parseStreamMessage m
        = .ok (some { type := "assistant",
                      content := some ("Using tools: " ++ String.intercalate ", " names),
                      tool_calls := some (blocks.filterMap toolUseOf),
                      metadata := none }))
    ∧ (∀ texts, blocks.filterMap toolUseOf = [] →
        blocks.filterMap textOf ≠ [] →
        (blocks.filterMap textOf).mapM asPyStr = .ok texts →
        parseStreamMessage m
          = .ok (some { type := "assistant",
                        content := some (String.intercalate "\n" texts),
                        tool_calls := none, metadata := none }))
    ∧ (blocks.filterMap toolUseOf = [] → blocks.filterMap textOf = [] →
        parseStreamMessage m = .ok none)
    ∧ (handleProcessOutput none
        [.parsed "" (.jobj helloMsg), .parsed "" (.jobj readMsg)] 0 ""
        = .ok { content := "Hello", session_id := .jstr "", cost := .jnum 0,
                duration_ms := 0, num_turns := 2, is_error := false,
                error_type := none,
                tools_used := [⟨some (.jstr "Read"), .jobj [], none⟩] }) := by
  have ha : optEqStr (getField m "type") "assistant" = true := by
    rw [hty]; rfl
  refine ⟨?_, ?_, ?_, rfl⟩
  · intro names hne hmap
    have hemp : (blocks.filterMap toolUseOf).isEmpty = false :=
      List.isEmpty_eq_false.mpr hne
    unfold parseStreamMessage
    rw [ha, if_pos rfl, hblocks]
    simp only [hemp, Bool.not_false, if_true]
    rw [hmap]
  · intro texts htc hne hmap
    have hemp : (blocks.filterMap textOf).isEmpty = false :=
      List.isEmpty_eq_false.mpr hne
    unfold parseStreamMessage
    rw [ha, if_pos rfl, hblocks]
    simp only [htc, List.isEmpty_nil, Bool.not_true, Bool.false_eq_true,
      if_false, hemp, Bool.not_false, if_true]
    rw [hmap]
  · intro htc htx
    unfold parseStreamMessage
    rw [ha, if_pos rfl, hblocks]
    simp [htc, htx]

/-- Witness for C5: the `"Read"` tool record alone. -/
theorem C5_assistant_classification_witness :
    parseStreamMessage readMsg
      = .ok (some { type := "assistant",
                    content := some "Using tools: Read",
                    tool_calls := some [⟨some (.jstr "Read"), .jobj []⟩],
                    metadata := none }) := by
  obtain ⟨h1, -, -, -⟩ := C5_assistant_classification readMsg
    [[("type", .jstr "tool_use"), ("name", .jstr "Read")]] rfl rfl
  exact h1 ["Read"] (List.cons_ne_nil _ _) rfl

end CCBot